import Mathlib

/-!
Verification of the AgendaNova appointment-scheduling core
(`project/models.py` and `project/api_routes.py`) against its
natural-language specification.

Modelling conventions:
* Wall-clock timestamps are `Int` minutes in the clinic's fixed local
  timezone (Peru, UTC-5); the source stores naive `datetime`s that are
  always interpreted in that timezone, so a single integer axis is
  faithful. Minute granularity suffices for every claim checked here.
* Database rows are a `List Appointment` in primary-key order; a
  SQLAlchemy `query.filter(...).first()` becomes `List.find?` of the
  translated predicate.
* Python exceptions become `Except`; methods that mutate `self` and may
  raise are translated as state+exception pairs
  (`Except String Unit × Appointment`) so that a raise occurring after a
  partial mutation would be observable.
-/

namespace AgendaNova

/-- `AppointmentStatus` enum of `models.py` (string-valued Python enum). -/
inductive AppointmentStatus where
  | PROGRAMADA
  | COMPLETADA
  | CANCELADA
  | NoAsistio
  deriving DecidableEq, Repr

/-- The `.value` string of each enum member (`models.py` lines 26-31). -/
def AppointmentStatus.value : AppointmentStatus → String
  | .PROGRAMADA => "Programada"
  | .COMPLETADA => "Completada"
  | .CANCELADA => "Cancelada"
  | .NoAsistio => "No Asistió"

/-- Python `AppointmentStatus(value)` lookup: the inverse of `.value`
(standard `enum.Enum` by-value construction, `None` replaced by failure). -/
def AppointmentStatus.ofValue (s : String) : Option AppointmentStatus :=
  if s = "Programada" then some .PROGRAMADA
  else if s = "Completada" then some .COMPLETADA
  else if s = "Cancelada" then some .CANCELADA
  else if s = "No Asistió" then some .NoAsistio
  else none

/-- The `Appointment` row of `models.py` (columns relevant to the core;
`created_at` is carried along untouched by every operation modelled). -/
structure Appointment where
  id : Nat
  clinic_id : Nat
  professional_id : Nat
  patient_id : Nat
  service_id : Option Nat
  start_datetime : Int
  end_datetime : Int
  status : AppointmentStatus
  notes : Option String
  cancelled_at : Option Int
  cancellation_reason : Option String
  created_at : Int
  updated_at : Int
  deriving DecidableEq, Repr

/-- `Appointment.can_be_completed`: Scheduled and the end time already
reached (`end_aware <= now_peru`); `now` is the current Peru time. -/
def can_be_completed (a : Appointment) (now : Int) : Bool :=
  a.status == .PROGRAMADA && a.end_datetime ≤ now

/-- `Appointment.can_be_cancelled`: status is Scheduled. -/
def can_be_cancelled (a : Appointment) : Bool :=
  a.status == .PROGRAMADA

/-- `Appointment.can_be_edited`: status is Scheduled or NoShow. -/
def can_be_edited (a : Appointment) : Bool :=
  a.status == .PROGRAMADA || a.status == .NoAsistio

/-- Python `reason or default`: `None` and the empty string (both falsy)
select the default. -/
def reasonOrDefault (reason : Option String) (default : String) : String :=
  match reason with
  | none => default
  | some r => if r = "" then default else r

def completeError : String :=
  "No se puede completar esta cita. Debe estar programada y haber pasado la fecha."

def cancelError : String := "No se puede cancelar esta cita."

def noShowError : String :=
  "Solo se pueden marcar citas programadas como \x22No Asistió\x22."

/-- `Appointment.complete` as a state+exception computation: the guard
raises before any field is assigned; on success `status` then
`updated_at` are assigned in order. -/
def completeM (now : Int) (a : Appointment) : Except String Unit × Appointment :=
  if ¬ can_be_completed a now then (.error completeError, a)
  else (.ok (), { a with status := .COMPLETADA, updated_at := now })

/-- `Appointment.cancel` as a state+exception computation. -/
def cancelM (reason : Option String) (now : Int) (a : Appointment) :
    Except String Unit × Appointment :=
  if ¬ can_be_cancelled a then (.error cancelError, a)
  else (.ok (), { a with
    status := .CANCELADA
    cancelled_at := some now
    cancellation_reason := some (reasonOrDefault reason "Sin motivo especificado")
    updated_at := now })

/-- `Appointment.mark_no_show` as a state+exception computation (its guard
is `status == PROGRAMADA` inlined, not `can_be_cancelled`). -/
def markNoShowM (reason : Option String) (now : Int) (a : Appointment) :
    Except String Unit × Appointment :=
  if ¬ (a.status == .PROGRAMADA) then (.error noShowError, a)
  else (.ok (), { a with
    status := .NoAsistio
    cancellation_reason := some (reasonOrDefault reason "El paciente no asistió")
    updated_at := now })

/-- `Appointment.complete` viewed as a fallible function on rows. -/
def complete (a : Appointment) (now : Int) : Except String Appointment :=
  match completeM now a with
  | (.ok _, a') => .ok a'
  | (.error m, _) => .error m

/-- `Appointment.cancel` viewed as a fallible function on rows. -/
def cancel (a : Appointment) (reason : Option String) (now : Int) :
    Except String Appointment :=
  match cancelM reason now a with
  | (.ok _, a') => .ok a'
  | (.error m, _) => .error m

/-- `Appointment.mark_no_show` viewed as a fallible function on rows. -/
def mark_no_show (a : Appointment) (reason : Option String) (now : Int) :
    Except String Appointment :=
  match markNoShowM reason now a with
  | (.ok _, a') => .ok a'
  | (.error m, _) => .error m

/-- The row predicate of the `Appointment.check_overlap` query: same
clinic and professional, live status, half-open interval intersection,
and — only when `exclude_appointment_id` is truthy (Python: non-`None`
AND non-zero) — a different primary key. -/
def exclFilter : Option Nat → Appointment → Bool
  | none, _ => true
  | some e, a => if e == 0 then true else a.id != e

def overlapMatch (clinic professional : Nat) (start_dt end_dt : Int)
    (excl : Option Nat) (a : Appointment) : Bool :=
  a.clinic_id == clinic && a.professional_id == professional &&
  (a.status == .PROGRAMADA || a.status == .COMPLETADA) &&
  a.start_datetime < end_dt && a.end_datetime > start_dt &&
  exclFilter excl a

/-- `Appointment.check_overlap`: first matching row in primary-key order,
or `none`. -/
def check_overlap (clinic professional : Nat) (start_dt end_dt : Int)
    (excl : Option Nat) (appts : List Appointment) : Option Appointment :=
  appts.find? (overlapMatch clinic professional start_dt end_dt excl)

/-! ### Availability enumeration (`api_routes.check_availability`) -/

/-- The day-appointments query of `check_availability`: same professional
and clinic, start within the target day's `[min.time, max.time]`
(`dayEnd` is the last minute of the day at this model's granularity),
live status. The `order_by(start_datetime)` of the source only reorders
the list and is irrelevant to the `any`-based occupancy test below, so
primary-key order is kept. -/
def dayAppointments (professional clinic : Nat) (dayStart dayEnd : Int)
    (appts : List Appointment) : List Appointment :=
  appts.filter (fun a =>
    a.professional_id == professional && a.clinic_id == clinic &&
    dayStart ≤ a.start_datetime && a.start_datetime ≤ dayEnd &&
    (a.status == .PROGRAMADA || a.status == .COMPLETADA))

/-- One candidate slot is occupied when some fetched appointment
half-open-intersects it (`apt.start < slot_end and apt.end > current`). -/
def slotOccupied (appts : List Appointment) (current slotEnd : Int) : Bool :=
  appts.any (fun apt =>
    apt.start_datetime < slotEnd && apt.end_datetime > current)

/-- The `while current_slot + slot_duration <= work_end` loop of
`check_availability`, fuel-indexed because the source loop is unbounded:
`none` means the fuel ran out before the loop exited. -/
def slotsLoop (fuel : Nat) (appts : List Appointment) (dur workEnd : Int)
    (current : Int) (acc : List (Int × Int)) : Option (List (Int × Int)) :=
  match fuel with
  | 0 => none
  | fuel + 1 =>
    if current + dur ≤ workEnd then
      let slotEnd := current + dur
      slotsLoop fuel appts dur workEnd (current + dur)
        (if slotOccupied appts current slotEnd then acc
         else acc ++ [(current, slotEnd)])
    else some acc

/-- `check_availability` for the day whose midnight is minute `day`:
fetch the day's live appointments, then walk the fixed 08:00–20:00 grid
(`work_start = day+480`, `work_end = day+1200`) in `dur`-minute steps.
Fuel-indexed like the loop it wraps. -/
def check_availability (fuel : Nat) (appts : List Appointment)
    (professional clinic : Nat) (day : Int) (dur : Int) :
    Option (List (Int × Int)) :=
  slotsLoop fuel (dayAppointments professional clinic day (day + 1439) appts)
    dur (day + 1200) (day + 480) []

/-! ### Appointment editing (`api_routes.update_appointment`) -/

/-- `Patient` row projection: only the tenancy fields the edit endpoint
reads. -/
structure Patient where
  id : Nat
  clinic_id : Nat
  deriving DecidableEq, Repr

/-- `Service` row projection: only the tenancy fields the edit endpoint
reads. -/
structure Service where
  id : Nat
  clinic_id : Nat
  deriving DecidableEq, Repr

/-- The JSON body of a `PUT /appointments/<id>` request, restricted to the
keys the endpoint reads; `notes = some none` is an explicit `null`/empty
value under the `notes` key. -/
structure EditData where
  start_datetime : Option Int
  end_datetime : Option Int
  patient_id : Option Nat
  service_id : Option Nat
  notes : Option (Option String)
  deriving DecidableEq, Repr

/-- The distinguishable failure outcomes of `update_appointment` (the
authorization and date-parse failures are request-layer concerns outside
the core and are not modelled). -/
inductive EditError where
  | NotEditable
  | InvalidInterval
  | Conflict (conflicting : Appointment)
  | PatientNotFound
  | ServiceNotFound
  deriving DecidableEq, Repr

/-- Python `notes_value.strip() if notes_value else None`: falsy (absent
marker `none` or empty string) becomes NULL, otherwise the trimmed text. -/
def stripNotes (v : Option String) : Option String :=
  match v with
  | none => none
  | some s => if s = "" then none else some s.trim

/-- `update_appointment` (`api_routes.py`): editability guard, interval
defaults from the stored row, `end > start` validation, the
anti-overlap check excluding the edited row itself (run only when the
request supplies a date), tenancy lookups for a supplied patient or
service, then the field mutations. Failure paths commit nothing, so
they leave the stored row unchanged. -/
def update_appointment (a : Appointment) (data : EditData)
    (appts : List Appointment) (patients : List Patient)
    (services : List Service) : Except EditError Appointment :=
  if ¬ can_be_edited a then .error .NotEditable
  else
    let start_dt := data.start_datetime.getD a.start_datetime
    let end_dt := data.end_datetime.getD a.end_datetime
    if end_dt ≤ start_dt then .error .InvalidInterval
    else
      match
        if data.start_datetime.isSome || data.end_datetime.isSome then
          check_overlap a.clinic_id a.professional_id start_dt end_dt
            (some a.id) appts
        else none with
      | some c => .error (.Conflict c)
      | none =>
        let a1 := { a with start_datetime := start_dt, end_datetime := end_dt }
        match data.patient_id with
        | some pid =>
          match patients.find? (fun p => p.id == pid) with
          | some p =>
            if p.clinic_id ≠ a.clinic_id then .error .PatientNotFound
            else
              let a2 := { a1 with patient_id := pid }
              match data.service_id with
              | some sid =>
                match services.find? (fun s => s.id == sid) with
                | some s =>
                  if s.clinic_id ≠ a.clinic_id then .error .ServiceNotFound
                  else
                    let a3 := { a2 with service_id := some sid }
                    .ok (match data.notes with
                         | some nv => { a3 with notes := stripNotes nv }
                         | none => a3)
                | none => .error .ServiceNotFound
              | none =>
                .ok (match data.notes with
                     | some nv => { a2 with notes := stripNotes nv }
                     | none => a2)
          | none => .error .PatientNotFound
        | none =>
          match data.service_id with
          | some sid =>
            match services.find? (fun s => s.id == sid) with
            | some s =>
              if s.clinic_id ≠ a.clinic_id then .error .ServiceNotFound
              else
                let a3 := { a1 with service_id := some sid }
                .ok (match data.notes with
                     | some nv => { a3 with notes := stripNotes nv }
                     | none => a3)
            | none => .error .ServiceNotFound
          | none =>
            .ok (match data.notes with
                 | some nv => { a1 with notes := stripNotes nv }
                 | none => a1)

/-! ### Serialization (`Appointment.to_dict`, `api_routes.parse_datetime`) -/

/-- Peru is fixed UTC-5: offset in minutes (`PERU_TZ`). -/
def PERU_OFFSET : Int := -300

/-- A timezone-aware timestamp as it appears in an ISO 8601 string with
offset: local wall-clock minutes plus the UTC offset in minutes. -/
structure AwareDT where
  wall : Int
  offset : Int
  deriving DecidableEq, Repr

/-- `naive.replace(tzinfo=PERU_TZ)`: tag the stored naive timestamp with
the Peru offset before serializing (`to_dict` start/end handling). -/
def makeAware (t : Int) : AwareDT := ⟨t, PERU_OFFSET⟩

/-- The dictionary produced by `Appointment.to_dict`, restricted to the
row-valued entries (the `*_name`/`*_phone` entries join other tables and
carry no appointment state). `status` is the enum's `.value` string;
`start_datetime`/`end_datetime` are serialized timezone-aware, while
`cancelled_at`/`created_at` are serialized naive. -/
structure AppointmentDict where
  id : Nat
  clinic_id : Nat
  professional_id : Nat
  patient_id : Nat
  service_id : Option Nat
  start_datetime : AwareDT
  end_datetime : AwareDT
  status : String
  notes : Option String
  cancelled_at : Option Int
  cancellation_reason : Option String
  created_at : Option Int
  can_complete : Bool
  can_cancel : Bool
  can_edit : Bool
  deriving DecidableEq, Repr

/-- `Appointment.to_dict` (`now` is the current Peru time consumed by the
embedded `can_be_completed` guard). -/
def to_dict (a : Appointment) (now : Int) : AppointmentDict :=
  { id := a.id
    clinic_id := a.clinic_id
    professional_id := a.professional_id
    patient_id := a.patient_id
    service_id := a.service_id
    start_datetime := makeAware a.start_datetime
    end_datetime := makeAware a.end_datetime
    status := a.status.value
    notes := a.notes
    cancelled_at := a.cancelled_at
    cancellation_reason := a.cancellation_reason
    created_at := some a.created_at
    can_complete := can_be_completed a now
    can_cancel := can_be_cancelled a
    can_edit := can_be_edited a }

/-- `api_routes.parse_datetime` on an already-parsed ISO timestamp: an
offset-carrying input is converted to Peru wall-clock time
(`astimezone(PERU_TZ)`: UTC = wall − offset, Peru wall = UTC + Peru
offset); a naive input is assumed to already be Peru time; the result is
stored naive. -/
def parse_datetime (wall : Int) (tz : Option Int) : Int :=
  match tz with
  | some off => wall - off + PERU_OFFSET
  | none => wall

/-- Modelled from the spec: the repository has no appointment
deserializer under `src` (rows are only re-created from client JSON), so
per the spec's round-trip property the external representation is read
back with `status` through the enum's string values, the interval
through `parse_datetime`, and `cancellation_reason` verbatim. Returns
the recovered (status, start, end, cancellation_reason). -/
def appointment_from_dict (d : AppointmentDict) :
    Option (AppointmentStatus × Int × Int × Option String) :=
  (AppointmentStatus.ofValue d.status).map fun st =>
    (st,
     parse_datetime d.start_datetime.wall (some d.start_datetime.offset),
     parse_datetime d.end_datetime.wall (some d.end_datetime.offset),
     d.cancellation_reason)

/-! ### Concrete rows used to instantiate theorems -/

/-- A live 9:00–9:30 booking (minutes 540–570) for professional 1 of
clinic 1. -/
def apptA : Appointment :=
  { id := 1, clinic_id := 1, professional_id := 1, patient_id := 1
    service_id := some 1, start_datetime := 540, end_datetime := 570
    status := .PROGRAMADA, notes := none, cancelled_at := none
    cancellation_reason := none, created_at := 0, updated_at := 0 }

/-- An already-completed appointment. -/
def apptDone : Appointment := { apptA with id := 2, status := .COMPLETADA }

/-- `apptA` after `cancel(None)` at minute 1000. -/
def apptACancelled : Appointment :=
  { apptA with
    status := .CANCELADA
    cancelled_at := some 1000
    cancellation_reason := some "Sin motivo especificado"
    updated_at := 1000 }

/-! ### Helper lemmas -/

lemma overlapMatch_iff (clinic professional : Nat) (s e : Int)
    (excl : Option Nat) (hexcl : excl ≠ some 0) (a : Appointment) :
    overlapMatch clinic professional s e excl a = true ↔
      a.clinic_id = clinic ∧ a.professional_id = professional ∧
      (a.status = .PROGRAMADA ∨ a.status = .COMPLETADA) ∧
      a.start_datetime < e ∧ s < a.end_datetime ∧
      (∀ i, excl = some i → a.id ≠ i) := by
  unfold overlapMatch
  cases excl with
  | none =>
    simp only [exclFilter, Bool.and_eq_true, beq_iff_eq, Bool.or_eq_true,
      decide_eq_true_eq, Bool.and_true]
    constructor
    · rintro ⟨⟨⟨⟨h1, h2⟩, h3⟩, h4⟩, h5⟩
      exact ⟨h1, h2, h3, h4, h5, fun i hi => by cases hi⟩
    · rintro ⟨h1, h2, h3, h4, h5, -⟩
      exact ⟨⟨⟨⟨h1, h2⟩, h3⟩, h4⟩, h5⟩
  | some i =>
    have hi : (i == 0) = false := by
      rcases Nat.eq_zero_or_pos i with h0 | h0
      · exact absurd (by rw [h0]) hexcl
      · exact beq_eq_false_iff_ne.mpr (Nat.pos_iff_ne_zero.mp h0)
    have hif : exclFilter (some i) a = (a.id != i) := by
      simp [exclFilter, hi]
    rw [hif]
    simp only [Bool.and_eq_true, beq_iff_eq, Bool.or_eq_true,
      decide_eq_true_eq, bne_iff_ne, ne_eq]
    constructor
    · rintro ⟨⟨⟨⟨⟨h1, h2⟩, h3⟩, h4⟩, h5⟩, h6⟩
      refine ⟨h1, h2, h3, h4, h5, fun j hj => ?_⟩
      injection hj with hj
      subst hj
      exact h6
    · rintro ⟨h1, h2, h3, h4, h5, h6⟩
      exact ⟨⟨⟨⟨⟨h1, h2⟩, h3⟩, h4⟩, h5⟩, h6 i rfl⟩

lemma cancel_ok_status (a a' : Appointment) (reason : Option String) (now : Int)
    (h : cancel a reason now = Except.ok a') : a'.status = .CANCELADA := by
  unfold cancel cancelM at h
  by_cases hc : can_be_cancelled a
  · simp only [hc, not_true_eq_false, if_false, Except.ok.injEq] at h
    rw [← h]
  · simp [hc] at h

/-! ### Claim theorems -/

/-- C1: `check_overlap(clinic, professional, start, end, excludeId?)`
reports a conflict exactly when some stored appointment for the same
(clinic, professional), with an id different from the (truthy) excludeId
and a live status (Scheduled or Completed), half-open-intersects the
candidate interval (`A.start < end` and `A.end > start`); in particular
merely touching intervals and Cancelled/NoShow rows are never reported. -/
theorem check_overlap_reports_iff (clinic professional : Nat) (s e : Int)
    (excl : Option Nat) (appts : List Appointment) (hexcl : excl ≠ some 0) :
    (check_overlap clinic professional s e excl appts).isSome ↔
      ∃ a ∈ appts, a.clinic_id = clinic ∧ a.professional_id = professional ∧
        (a.status = .PROGRAMADA ∨ a.status = .COMPLETADA) ∧
        a.start_datetime < e ∧ s < a.end_datetime ∧
        (∀ i, excl = some i → a.id ≠ i) := by
  rw [check_overlap, List.find?_isSome]
  constructor
  · rintro ⟨a, ha, hm⟩
    exact ⟨a, ha, (overlapMatch_iff clinic professional s e excl hexcl a).1 hm⟩
  · rintro ⟨a, ha, hm⟩
    exact ⟨a, ha, (overlapMatch_iff clinic professional s e excl hexcl a).2 hm⟩

theorem check_overlap_reports_iff_witness :
    ∃ a ∈ [apptA], a.clinic_id = 1 ∧ a.professional_id = 1 ∧
      (a.status = .PROGRAMADA ∨ a.status = .COMPLETADA) ∧
      a.start_datetime < 580 ∧ 550 < a.end_datetime ∧
      (∀ i, (some 2 : Option Nat) = some i → a.id ≠ i) :=
  (check_overlap_reports_iff 1 1 550 580 (some 2) [apptA]
    (by decide)).1 (by rfl)

/-- C2: `complete()` succeeds exactly when the appointment is Scheduled
and the current Peru time has reached its end time, setting status to
Completed and refreshing `updated_at`; otherwise it raises the
invalid-transition error and returns no mutated row. -/
theorem complete_spec (a : Appointment) (now : Int) :
    complete a now =
      if a.status = .PROGRAMADA ∧ a.end_datetime ≤ now then
        Except.ok { a with status := .COMPLETADA, updated_at := now }
      else Except.error completeError := by
  unfold complete completeM can_be_completed
  by_cases h1 : a.status = .PROGRAMADA
  · by_cases h2 : a.end_datetime ≤ now <;> simp [h1, h2]
  · simp [h1]

/-- C5: `cancel(reason?)` succeeds exactly when the appointment is
Scheduled, setting status to Cancelled, `cancelled_at` to now,
`cancellation_reason` to the given reason or the default string when the
reason is absent (or empty, which Python treats as absent), and
refreshing `updated_at`; otherwise it raises the invalid-transition
error. -/
theorem cancel_spec (a : Appointment) (reason : Option String) (now : Int) :
    cancel a reason now =
      if a.status = .PROGRAMADA then
        Except.ok { a with
          status := .CANCELADA
          cancelled_at := some now
          cancellation_reason :=
            some (reasonOrDefault reason "Sin motivo especificado")
          updated_at := now }
      else Except.error cancelError := by
  unfold cancel cancelM can_be_cancelled
  by_cases h : a.status = .PROGRAMADA <;> simp [h]

/-- C6: after a successful `cancel`, the cancelled row is never reported
by `check_overlap` over its former interval (no excludeId), and a
candidate over exactly that interval passes the conflict check whenever
every other stored row is a non-match: cancellation frees the slot. -/
theorem cancel_frees_slot (a a' : Appointment) (reason : Option String)
    (now : Int) (h : cancel a reason now = Except.ok a') :
    (∀ appts : List Appointment,
      check_overlap a.clinic_id a.professional_id a.start_datetime
        a.end_datetime none appts ≠ some a') ∧
    ∀ others : List Appointment,
      (∀ b ∈ others, overlapMatch a.clinic_id a.professional_id
        a.start_datetime a.end_datetime none b = false) →
      check_overlap a.clinic_id a.professional_id a.start_datetime
        a.end_datetime none (others ++ [a']) = none := by
  have hst := cancel_ok_status a a' reason now h
  have hpred : overlapMatch a.clinic_id a.professional_id a.start_datetime
      a.end_datetime none a' = false := by
    unfold overlapMatch
    simp [hst]
  constructor
  · intro appts hcontra
    have := List.find?_some hcontra
    rw [hpred] at this
    cases this
  · intro others hothers
    rw [check_overlap, List.find?_eq_none]
    intro x hx
    rcases List.mem_append.1 hx with hx | hx
    · simp [hothers x hx]
    · rcases List.mem_singleton.1 hx with rfl
      simp [hpred]

theorem cancel_frees_slot_witness :
    check_overlap apptA.clinic_id apptA.professional_id apptA.start_datetime
      apptA.end_datetime none ([] ++ [apptACancelled]) = none :=
  (cancel_frees_slot apptA apptACancelled none 1000 (by rfl)).2 []
    (by intro b hb; cases hb)

/-- C10: the three state-machine mutators raise before assigning any
field, so a failed `complete`, `cancel` or `mark_no_show` leaves every
field of the row exactly as it was. -/
theorem failed_transitions_atomic (a : Appointment) (reason : Option String)
    (now : Int) :
    (∀ msg, (completeM now a).1 = Except.error msg → (completeM now a).2 = a) ∧
    (∀ msg, (cancelM reason now a).1 = Except.error msg →
      (cancelM reason now a).2 = a) ∧
    (∀ msg, (markNoShowM reason now a).1 = Except.error msg →
      (markNoShowM reason now a).2 = a) := by
  refine ⟨?_, ?_, ?_⟩
  · intro msg h
    by_cases hc : can_be_completed a now
    · simp [completeM, hc] at h
    · simp [completeM, hc]
  · intro msg h
    by_cases hc : can_be_cancelled a
    · simp [cancelM, hc] at h
    · simp [cancelM, hc]
  · intro msg h
    by_cases hc : a.status = .PROGRAMADA
    · simp [markNoShowM, hc] at h
    · simp [markNoShowM, hc]

theorem failed_transitions_atomic_witness :
    (completeM 0 apptDone).2 = apptDone :=
  (failed_transitions_atomic apptDone none 0).1 completeError rfl

/-! ### Editing: helper definitions and theorems -/

/-- The field mutations of a successful `update_appointment`, applied to
the stored row: interval defaults from the row, then patient, service
and notes when the request supplies them. -/
def applyEdit (a : Appointment) (data : EditData) : Appointment :=
  let a1 := { a with
    start_datetime := data.start_datetime.getD a.start_datetime
    end_datetime := data.end_datetime.getD a.end_datetime }
  let a2 := match data.patient_id with
    | some pid => { a1 with patient_id := pid }
    | none => a1
  let a3 := match data.service_id with
    | some sid => { a2 with service_id := some sid }
    | none => a2
  match data.notes with
  | some nv => { a3 with notes := stripNotes nv }
  | none => a3

/-- The request's patient reference, when present, resolves inside the
row's clinic. -/
def validPatientRef (pid? : Option Nat) (patients : List Patient)
    (clinic : Nat) : Prop :=
  ∀ pid, pid? = some pid →
    ∃ p, patients.find? (fun p => p.id == pid) = some p ∧ p.clinic_id = clinic

/-- The request's service reference, when present, resolves inside the
row's clinic. -/
def validServiceRef (sid? : Option Nat) (services : List Service)
    (clinic : Nat) : Prop :=
  ∀ sid, sid? = some sid →
    ∃ s, services.find? (fun s => s.id == sid) = some s ∧ s.clinic_id = clinic

/-- An empty edit request body. -/
def editNothing : EditData :=
  { start_datetime := none, end_datetime := none, patient_id := none
    service_id := none, notes := none }

/-- A no-show booking for professional 1 of clinic 1. -/
def apptNoShow : Appointment := { apptA with status := .NoAsistio }

/-- A request moving the interval to 10:00–10:30. -/
def editMove : EditData := { editNothing with
  start_datetime := some 600
  end_datetime := some 630 }

/-- `apptNoShow` after `editMove`. -/
def apptNoShowMoved : Appointment :=
  { apptNoShow with start_datetime := 600, end_datetime := 630 }

/-- C4: `update_appointment` refuses to edit a Completed or Cancelled row
with `NotEditable` (no fields change as nothing is committed); in an
editable state it fails with `Conflict` carrying the first live
overlapping row of the same (clinic, professional) found by the
self-excluding overlap check; and with an editable state, a valid
interval, no conflict, and tenancy-valid patient/service references, it
returns the row with exactly the requested fields updated. -/
theorem update_appointment_spec (a : Appointment) (data : EditData)
    (appts : List Appointment) (patients : List Patient)
    (services : List Service) :
    ((a.status = .COMPLETADA ∨ a.status = .CANCELADA) →
      update_appointment a data appts patients services =
        Except.error .NotEditable) ∧
    ((a.status = .PROGRAMADA ∨ a.status = .NoAsistio) →
      (data.start_datetime.isSome ∨ data.end_datetime.isSome) →
      data.start_datetime.getD a.start_datetime <
        data.end_datetime.getD a.end_datetime →
      ∀ c, check_overlap a.clinic_id a.professional_id
          (data.start_datetime.getD a.start_datetime)
          (data.end_datetime.getD a.end_datetime) (some a.id) appts =
            some c →
        update_appointment a data appts patients services =
          Except.error (.Conflict c)) ∧
    ((a.status = .PROGRAMADA ∨ a.status = .NoAsistio) →
      data.start_datetime.getD a.start_datetime <
        data.end_datetime.getD a.end_datetime →
      check_overlap a.clinic_id a.professional_id
        (data.start_datetime.getD a.start_datetime)
        (data.end_datetime.getD a.end_datetime) (some a.id) appts = none →
      validPatientRef data.patient_id patients a.clinic_id →
      validServiceRef data.service_id services a.clinic_id →
      update_appointment a data appts patients services =
        Except.ok (applyEdit a data)) := by
  refine ⟨?_, ?_, ?_⟩
  · intro hst
    have he : can_be_edited a = false := by
      rcases hst with h | h <;> simp [can_be_edited, h]
    unfold update_appointment
    simp [he]
  · intro hst hdates hlt c hov
    have he : can_be_edited a = true := by
      rcases hst with h | h <;> simp [can_be_edited, h]
    have hd : (data.start_datetime.isSome || data.end_datetime.isSome) = true := by
      rcases hdates with h | h <;> simp [h]
    have hnle : ¬ (data.end_datetime.getD a.end_datetime ≤
        data.start_datetime.getD a.start_datetime) := not_le.mpr hlt
    unfold update_appointment
    simp [he, hnle, hd, hov]
  · intro hst hlt hov hp hs
    have he : can_be_edited a = true := by
      rcases hst with h | h <;> simp [can_be_edited, h]
    have hnle : ¬ (data.end_datetime.getD a.end_datetime ≤
        data.start_datetime.getD a.start_datetime) := not_le.mpr hlt
    unfold update_appointment applyEdit
    rcases hpid : data.patient_id with - | pid
    · rcases hsid : data.service_id with - | sid
      · cases hn : data.notes <;> simp [he, hnle, hov, hpid, hsid, hn]
      · obtain ⟨sv, hsfind, hsclin⟩ := hs sid hsid
        cases hn : data.notes <;>
          simp [he, hnle, hov, hpid, hsid, hn, hsfind, hsclin]
    · obtain ⟨p, hpfind, hpclin⟩ := hp pid hpid
      rcases hsid : data.service_id with - | sid
      · cases hn : data.notes <;>
          simp [he, hnle, hov, hpid, hsid, hn, hpfind, hpclin]
      · obtain ⟨sv, hsfind, hsclin⟩ := hs sid hsid
        cases hn : data.notes <;>
          simp [he, hnle, hov, hpid, hsid, hn, hpfind, hpclin, hsfind, hsclin]

theorem update_appointment_spec_witness :
    update_appointment apptDone editNothing [] [] [] =
      Except.error .NotEditable :=
  (update_appointment_spec apptDone editNothing [] [] []).1 (Or.inl rfl)

/-- C8: a successful edit never changes the appointment's status — the
row returned by a succeeding `update_appointment` carries the stored
status unchanged (in particular a NoShow row stays NoShow). -/
theorem update_appointment_preserves_status (a : Appointment)
    (data : EditData) (appts : List Appointment) (patients : List Patient)
    (services : List Service) (a' : Appointment)
    (h : update_appointment a data appts patients services = Except.ok a') :
    a'.status = a.status := by
  unfold update_appointment at h
  by_cases he : can_be_edited a
  · by_cases hle : data.end_datetime.getD a.end_datetime ≤
        data.start_datetime.getD a.start_datetime
    · rw [if_neg (by simp [he]), if_pos hle] at h
      cases h
    · rw [if_neg (by simp [he]), if_neg hle] at h
      repeat (any_goals split at h)
      all_goals (cases h <;> rfl)
  · rw [if_pos (by simp [he])] at h
    cases h

theorem update_appointment_preserves_status_witness :
    apptNoShowMoved.status = apptNoShow.status :=
  update_appointment_preserves_status apptNoShow editMove [apptNoShow] [] []
    apptNoShowMoved (by rfl)

/-! ### Availability: reference grid and loop correspondence -/

/-- A candidate slot survives when no fetched appointment intersects it. -/
def freeSlot (appts : List Appointment) (s : Int × Int) : Bool :=
  ! slotOccupied appts s.1 s.2

/-- The whole-slot grid from `current` to `workEnd` in `dur`-minute
steps: the closed form of the slot loop's candidate sequence, used to
state what the loop computes. Empty for non-positive `dur`. -/
def gridWalk (dur workEnd current : Int) : List (Int × Int) :=
  if _h : 0 < dur ∧ current + dur ≤ workEnd then
    (current, current + dur) :: gridWalk dur workEnd (current + dur)
  else []
termination_by (workEnd - current).toNat
decreasing_by
  simp_wf
  omega

lemma slotsLoop_eq_gridWalk (appts : List Appointment) (dur workEnd : Int)
    (hdur : 0 < dur) :
    ∀ fuel : Nat, ∀ current : Int, ∀ acc : List (Int × Int),
      (workEnd - current).toNat < fuel →
      slotsLoop fuel appts dur workEnd current acc =
        some (acc ++ (gridWalk dur workEnd current).filter (freeSlot appts)) := by
  intro fuel
  induction fuel with
  | zero => intro current acc _h; omega
  | succ n ih =>
    intro current acc h
    rw [slotsLoop, gridWalk]
    by_cases hc : current + dur ≤ workEnd
    · rw [if_pos hc, dif_pos ⟨hdur, hc⟩, List.filter_cons]
      by_cases ho : slotOccupied appts current (current + dur)
      · have hfree : freeSlot appts (current, current + dur) = false := by
          simp [freeSlot, ho]
        rw [hfree]
        simp only [ho, if_true, Bool.false_eq_true, if_false]
        exact ih (current + dur) acc (by omega)
      · have hfree : freeSlot appts (current, current + dur) = true := by
          simp [freeSlot]
          exact Bool.not_eq_true _ ▸ (by simpa using ho)
        rw [hfree]
        simp only [ho, Bool.false_eq_true, if_false, if_true]
        rw [ih (current + dur) (acc ++ [(current, current + dur)]) (by omega)]
        simp
    · rw [if_neg hc, dif_neg (fun hh => hc hh.2)]
      simp

lemma gridWalk_mem (dur workEnd : Int) (hdur : 0 < dur) :
    ∀ current, ∀ s : Int × Int,
      s ∈ gridWalk dur workEnd current ↔
      ∃ i : Nat, s = (current + dur * i, current + dur * i + dur) ∧
        current + dur * i + dur ≤ workEnd := by
  have H : ∀ n : Nat, ∀ current, (workEnd - current).toNat = n →
      ∀ s : Int × Int, s ∈ gridWalk dur workEnd current ↔
        ∃ i : Nat, s = (current + dur * i, current + dur * i + dur) ∧
          current + dur * i + dur ≤ workEnd := by
    intro n
    induction n using Nat.strong_induction_on with
    | _ n ih =>
      intro current hn s
      rw [gridWalk]
      by_cases hc : current + dur ≤ workEnd
      · rw [dif_pos ⟨hdur, hc⟩]
        have hrec := ih (workEnd - (current + dur)).toNat (by omega)
          (current + dur) rfl s
        constructor
        · intro hmem
          rcases List.mem_cons.1 hmem with rfl | hmem
          · exact ⟨0, by simp, by simpa using hc⟩
          · rcases hrec.1 hmem with ⟨i, hs, hle⟩
            refine ⟨i + 1, ?_, ?_⟩
            · rw [hs]
              have : current + dur + dur * (i : Int) =
                  current + dur * ((i : Int) + 1) := by ring
              push_cast
              rw [this]
            · push_cast
              linarith [hle]
        · rintro ⟨i, hs, hle⟩
          cases i with
          | zero =>
            apply List.mem_cons.2
            left
            rw [hs]
            simp
          | succ j =>
            apply List.mem_cons.2
            right
            apply hrec.2
            refine ⟨j, ?_, ?_⟩
            · rw [hs]
              push_cast
              have : current + dur * ((j : Int) + 1) =
                  current + dur + dur * (j : Int) := by ring
              rw [this]
            · push_cast at hle
              linarith [hle]
      · rw [dif_neg (fun hh => hc hh.2)]
        simp only [List.not_mem_nil, false_iff]
        rintro ⟨i, hs, hle⟩
        have hnn : 0 ≤ dur * (i : Int) :=
          mul_nonneg (le_of_lt hdur) (Int.natCast_nonneg i)
        exact hc (by linarith)
  intro current
  exact H (workEnd - current).toNat current rfl

lemma gridWalk_sorted (dur workEnd : Int) (hdur : 0 < dur) :
    ∀ current, List.Pairwise (fun s t : Int × Int => s.1 < t.1)
      (gridWalk dur workEnd current) := by
  have H : ∀ n : Nat, ∀ current, (workEnd - current).toNat = n →
      List.Pairwise (fun s t : Int × Int => s.1 < t.1)
        (gridWalk dur workEnd current) := by
    intro n
    induction n using Nat.strong_induction_on with
    | _ n ih =>
      intro current hn
      rw [gridWalk]
      by_cases hc : current + dur ≤ workEnd
      · rw [dif_pos ⟨hdur, hc⟩]
        refine List.Pairwise.cons ?_ ?_
        · intro t ht
          rcases (gridWalk_mem dur workEnd hdur (current + dur) t).1 ht
            with ⟨i, hs, -⟩
          have hnn : 0 ≤ dur * (i : Int) :=
            mul_nonneg (le_of_lt hdur) (Int.natCast_nonneg i)
          rw [hs]
          simp only
          linarith
        · exact ih (workEnd - (current + dur)).toNat (by omega)
            (current + dur) rfl
      · rw [dif_neg (fun hh => hc hh.2)]
        exact List.Pairwise.nil
  intro current
  exact H (workEnd - current).toNat current rfl

lemma slotsLoop_nonpos_dur (appts : List Appointment) (dur workEnd : Int)
    (hdur : dur ≤ 0) :
    ∀ fuel : Nat, ∀ current : Int, ∀ acc : List (Int × Int),
      current + dur ≤ workEnd →
      slotsLoop fuel appts dur workEnd current acc = none := by
  intro fuel
  induction fuel with
  | zero => intro current acc hc; rfl
  | succ n ih =>
    intro current acc hc
    rw [slotsLoop, if_pos hc]
    exact ih (current + dur) _ (by omega)

/-- The single live 10:00–10:30 booking from the spec's availability
example. -/
def booking10 : Appointment :=
  { apptA with start_datetime := 600, end_datetime := 630 }

/-- The 23 free 30-minute slots of the example day: every grid slot of
`[08:00, 20:00)` except the occupied 10:00 one. -/
def slots23 : List (Int × Int) :=
  [(480, 510), (510, 540), (540, 570), (570, 600),
   (630, 660), (660, 690), (690, 720), (720, 750), (750, 780),
   (780, 810), (810, 840), (840, 870), (870, 900), (900, 930),
   (930, 960), (960, 990), (990, 1020), (1020, 1050), (1050, 1080),
   (1080, 1110), (1110, 1140), (1140, 1170), (1170, 1200)]

/-- C3: with any positive slot duration and enough loop fuel,
`check_availability` returns exactly the whole `dur`-minute grid slots
of the fixed 08:00–20:00 window (started at 08:00, trailing remainder
discarded) that do not half-open-intersect any live appointment of that
professional on that date, ordered ascending by start time. On the
spec's example day — one 10:00–10:30 booking, duration 30 — this is
exercised by the witness, which checks the 23 resulting slots. -/
theorem check_availability_spec (appts : List Appointment)
    (professional clinic : Nat) (day dur : Int) (fuel : Nat)
    (hdur : 0 < dur) (hfuel : 720 < fuel) :
    ∃ slots, check_availability fuel appts professional clinic day dur =
        some slots ∧
      (∀ s : Int × Int, s ∈ slots ↔
        (∃ i : Nat, s = (day + 480 + dur * i, day + 480 + dur * i + dur) ∧
          day + 480 + dur * i + dur ≤ day + 1200) ∧
        slotOccupied (dayAppointments professional clinic day (day + 1439)
          appts) s.1 s.2 = false) ∧
      List.Pairwise (fun s t : Int × Int => s.1 < t.1) slots := by
  set A := dayAppointments professional clinic day (day + 1439) appts with hA
  refine ⟨(gridWalk dur (day + 1200) (day + 480)).filter (freeSlot A),
    ?_, ?_, ?_⟩
  · rw [check_availability, ← hA]
    have := slotsLoop_eq_gridWalk A dur (day + 1200) hdur fuel (day + 480) []
      (by omega)
    rw [this]
    simp
  · intro s
    rw [List.mem_filter, gridWalk_mem dur (day + 1200) hdur (day + 480) s]
    constructor
    · rintro ⟨hmem, hfree⟩
      refine ⟨hmem, ?_⟩
      simpa [freeSlot] using hfree
    · rintro ⟨hmem, hocc⟩
      exact ⟨hmem, by simp [freeSlot, hocc]⟩
  · exact List.Pairwise.filter _ (gridWalk_sorted dur (day + 1200) hdur
      (day + 480))

theorem check_availability_spec_witness :
    (∃ slots, check_availability 721 [booking10] 1 1 0 30 = some slots ∧
      (∀ s : Int × Int, s ∈ slots ↔
        (∃ i : Nat, s = (0 + 480 + 30 * (i : Int), 0 + 480 + 30 * (i : Int) + 30) ∧
          0 + 480 + 30 * (i : Int) + 30 ≤ 0 + 1200) ∧
        slotOccupied (dayAppointments 1 1 0 (0 + 1439) [booking10])
          s.1 s.2 = false) ∧
      List.Pairwise (fun s t : Int × Int => s.1 < t.1) slots) ∧
    check_availability 721 [booking10] 1 1 0 30 = some slots23 ∧
    slots23.length = 23 ∧ (600, 630) ∉ slots23 :=
  ⟨check_availability_spec [booking10] 1 1 0 30 721 (by decide) (by decide),
   by rfl, by rfl, by decide⟩

/-- C7 (amended): for every positive slot duration the availability
loop terminates — some finite fuel makes it return — and its finite
result is ordered chronologically; the enumeration is a pure function
of its inputs (the embedding is stateless by construction). The
unamended claim fails for non-positive durations, which the source
accepts from the query string: see the divergence counterexample. -/
theorem check_availability_terminates (appts : List Appointment)
    (professional clinic : Nat) (day dur : Int) (hdur : 0 < dur) :
    ∃ fuel slots,
      check_availability fuel appts professional clinic day dur =
        some slots ∧
      List.Pairwise (fun s t : Int × Int => s.1 < t.1) slots := by
  refine ⟨721, (gridWalk dur (day + 1200) (day + 480)).filter
    (freeSlot (dayAppointments professional clinic day (day + 1439) appts)),
    ?_, ?_⟩
  · rw [check_availability]
    have := slotsLoop_eq_gridWalk
      (dayAppointments professional clinic day (day + 1439) appts)
      dur (day + 1200) hdur 721 (day + 480) [] (by omega)
    rw [this]
    simp
  · exact List.Pairwise.filter _ (gridWalk_sorted dur (day + 1200) hdur
      (day + 480))

theorem check_availability_terminates_witness :
    ∃ fuel slots, check_availability fuel [] 1 1 0 30 = some slots ∧
      List.Pairwise (fun s t : Int × Int => s.1 < t.1) slots :=
  check_availability_terminates [] 1 1 0 30 (by decide)

/-- C7 (counterexample to the unamended claim): with slot duration 0 —
accepted from the `duration` query parameter — the availability loop
never exits, whatever fuel it is given: the enumeration does not
terminate for every slot-duration input. -/
theorem check_availability_diverges_on_zero_duration :
    ¬ ∃ fuel, (check_availability fuel [] 1 1 0 0).isSome := by
  rintro ⟨fuel, h⟩
  rw [check_availability,
    slotsLoop_nonpos_dur (dayAppointments 1 1 0 (0 + 1439) []) 0 (0 + 1200)
      (by omega) fuel (0 + 480) [] (by omega)] at h
  cases h

/-- C9: serializing an appointment through `to_dict` and reading the
external representation back recovers `status`, `start_datetime`,
`end_datetime` and `cancellation_reason` exactly: the enum string
round-trips through by-value lookup and the Peru-offset-tagged ISO
timestamps round-trip through `parse_datetime`. -/
theorem to_dict_round_trip (a : Appointment) (now : Int) :
    appointment_from_dict (to_dict a now) =
      some (a.status, a.start_datetime, a.end_datetime,
        a.cancellation_reason) := by
  have hval : AppointmentStatus.ofValue a.status.value = some a.status := by
    cases a.status <;> rfl
  have harith : ∀ t : Int, t - PERU_OFFSET + PERU_OFFSET = t := by
    intro t
    ring
  unfold appointment_from_dict to_dict makeAware parse_datetime
  simp only [hval, harith]
  rfl

end AgendaNova
